import Mathlib

/-!
Verification of the response-resolution and polling engine of the fluxxxer
upscaling client (`internal/upscaler/client.go`).

Bytes are modelled as `List Nat` (each element a byte value `< 256`); Go
strings are Lean `String`s; the stateful HTTP loops are modelled as pure
functions over explicit attempt streams (`Nat → ...`), with the poll
timeout rendered as a tick budget (`pollTimeout / pollInterval`).
-/

set_option maxRecDepth 4096

/-- PNG signature bytes 89 50 4E 47 0D 0A 1A 0A (client.go `pngSignature`). -/
def pngSignature : List Nat := [0x89, 0x50, 0x4E, 0x47, 0x0D, 0x0A, 0x1A, 0x0A]

/-- JPEG start-of-image marker FF D8 FF (client.go `jpegSignature`). -/
def jpegSignature : List Nat := [0xFF, 0xD8, 0xFF]

/-- client.go `hasPNGSignature`: the body starts with the 8-byte PNG magic. -/
def hasPNGSignature (data : List Nat) : Bool :=
  if data.length < pngSignature.length then false
  else data.take pngSignature.length == pngSignature

/-- client.go `hasJPEGSignature`: the body starts with the 3-byte JPEG marker. -/
def hasJPEGSignature (data : List Nat) : Bool :=
  if data.length < jpegSignature.length then false
  else data.take jpegSignature.length == jpegSignature

/-- ASCII whitespace bytes trimmed by `bytes.TrimSpace` (space, TAB, LF, VT, FF, CR). -/
def isSpaceByte (b : Nat) : Bool :=
  b == 0x20 || b == 0x09 || b == 0x0A || b == 0x0B || b == 0x0C || b == 0x0D

/-- client.go `isJSONResponse`: after trimming whitespace, the first byte is
a brace or bracket. -/
def isJSONResponse (data : List Nat) : Bool :=
  if data.isEmpty then false
  else
    let trimmed := (data.dropWhile isSpaceByte).reverse.dropWhile isSpaceByte |>.reverse
    match trimmed with
    | [] => false
    | firstChar :: _ => firstChar == 0x7B || firstChar == 0x5B

/-- The shape the client assigns to a response body: binary image data
(with the temp-file extension picked from the magic bytes) or JSON-like. -/
inductive BodyClass where
  | binaryImage (ext : String)
  | jsonLike
deriving DecidableEq, Repr

/-- The branch condition and extension choice of client.go lines 292–306:
binary when non-empty and (PNG magic, or JPEG marker, or not JSON-looking);
extension `.png` for PNG, `.jpg` for JPEG, `.png` as the default. -/
def classifyBody (data : List Nat) : BodyClass :=
  if data.length != 0 && (hasPNGSignature data || hasJPEGSignature data || !isJSONResponse data) then
    .binaryImage (if hasPNGSignature data then ".png"
      else if hasJPEGSignature data then ".jpg" else ".png")
  else .jsonLike

/-- Decoded form of the Go `UpscaleResult` struct (client.go lines 46–59);
absent JSON fields decode to Go zero values, hence the `""`/`false` defaults. -/
structure UpscaleResult where
  id : String := ""
  status : String := ""
  url : String := ""
  error : String := ""
  isCompleted : Bool := false
  success : Bool := false
  message : String := ""
  result : String := ""
  imageURL : String := ""
  outputURL : String := ""
deriving DecidableEq, Repr

/-- The typed failures the upscale/poll paths can surface (the `error`
returns of `UpscaleImageFromPath` and `pollForResultID`). -/
inductive UpscaleError where
  | decodeFailed (body : List Nat)
  | noURL (body : List Nat)
  | noJobID
  | emptyJobID
  | jobFailed (msg : String)
  | pollTransport (msg : String)
  | pollRead (msg : String)
  | pollTimeout
  | dataFormat
  | invalidDataURL
  | outerB64Invalid
  | nestedJSONInvalid
  | innerB64Invalid
deriving DecidableEq, Repr

/-- One poll tick as observed by `pollForResultID`: the GET either fails at
transport level, fails while reading the body, or yields a status code
together with the result of `json.Unmarshal` into `UpscaleResult`
(`none` when the body is not valid JSON for that struct). -/
inductive PollAttempt where
  | transportErr (msg : String)
  | readErr (msg : String)
  | response (status : Nat) (parsed : Option UpscaleResult)

/-- The body of one iteration of the poll loop (client.go lines 534–598):
`some` terminates the loop with that outcome, `none` continues polling. -/
def pollStep (a : PollAttempt) : Option (Except UpscaleError UpscaleResult) :=
  match a with
  | .transportErr msg => some (.error (.pollTransport msg))
  | .readErr msg => some (.error (.pollRead msg))
  | .response status parsed =>
    if status != 200 then none
    else
      match parsed with
      | none => none
      | some r =>
        if r.isCompleted || r.status == "completed" || r.status == "done" then
          let rc :=
            if r.url == "" then
              if r.imageURL != "" then { r with url := r.imageURL }
              else if r.outputURL != "" then { r with url := r.outputURL }
              else r
            else r
          if rc.url != "" then some (.ok rc)
          else if r.error != "" then some (.error (.jobFailed r.error))
          else none
        else if r.error != "" then some (.error (.jobFailed r.error))
        else none

/-- Terminal outcome of the polling loop. -/
inductive PollFinal where
  | ok (r : UpscaleResult)
  | err (e : UpscaleError)
  | timedOut
deriving DecidableEq, Repr

/-- The poll loop: the select over ticker and timeout channels, with the
5-minute timeout rendered as a budget of remaining ticks. -/
def pollLoop : Nat → (Nat → PollAttempt) → PollFinal
  | 0, _ => .timedOut
  | fuel + 1, atts =>
    match pollStep (atts 0) with
    | some (Except.ok r) => .ok r
    | some (Except.error e) => .err e
    | none => pollLoop fuel (fun i => atts (i + 1))

/-- `pollTimeout` of `NewClient`: 5 minutes, in seconds. -/
def pollTimeoutSeconds : Nat := 300

/-- `pollInterval` of `NewClient`: 2 seconds. -/
def pollIntervalSeconds : Nat := 2

/-- Number of ticker firings that fit inside the poll timeout. -/
def pollTicks : Nat := pollTimeoutSeconds / pollIntervalSeconds

/-- client.go `pollForResultID`, over a stream of poll-attempt outcomes. -/
def pollForResultID (jobID : String) (atts : Nat → PollAttempt) :
    Except UpscaleError UpscaleResult :=
  if jobID == "" then .error .emptyJobID
  else
    match pollLoop pollTicks atts with
    | .ok r => .ok r
    | .err e => .error e
    | .timedOut => .error .pollTimeout

/-- `strings.HasPrefix` on character lists. -/
def startsWithL (p l : List Char) : Bool :=
  l.take p.length == p

/-- `strings.HasPrefix` on strings. -/
def startsWithS (p s : String) : Bool :=
  startsWithL p.data s.data

/-- The URL fallback chain actually run by the poll loop (client.go lines
579–586): `url`, then `image_url`, then `output_url`; the `result` field is
not consulted there. -/
def pollResolveLocation (r : UpscaleResult) : String :=
  if r.url != "" then r.url
  else if r.imageURL != "" then r.imageURL
  else if r.outputURL != "" then r.outputURL
  else ""

/-- Modelled from the spec: the §4.3 step 1 field-priority rule — `url`,
then `image_url`, then `output_url`, then `result` if and only if it is an
absolute http(s) URL string. Stated for comparison with what the code does. -/
def specResolveLocation (r : UpscaleResult) : String :=
  if r.url != "" then r.url
  else if r.imageURL != "" then r.imageURL
  else if r.outputURL != "" then r.outputURL
  else if r.result != "" && (startsWithS "http://" r.result || startsWithS "https://" r.result) then
    r.result
  else ""

/-- `maxRetries` of the upload retry loop (client.go line 224). -/
def maxRetries : Nat := 3

/-- The retry loop of `UpscaleImageFromPath` (client.go lines 228–246) over
the stream of statuses the transport would answer on each attempt.
Returns the number of attempts performed, the status finally accepted, and
the list of backoff sleeps (in seconds: `attempt × 1s`) taken between
attempts. A 5xx status is retried while attempts remain; anything below
500 breaks out of the loop at once. -/
def retryAux (statuses : Nat → Nat) (maxR : Nat) (attempt : Nat) : Nat × Nat × List Nat :=
  let s := statuses attempt
  if h : 500 ≤ s ∧ attempt < maxR then
    let r := retryAux statuses maxR (attempt + 1)
    (r.1, r.2.1, attempt :: r.2.2)
  else (attempt, s, [])
termination_by maxR - attempt
decreasing_by omega

/-- The upload request with retries, at the client's `maxRetries = 3`. -/
def sendWithRetry (statuses : Nat → Nat) : Nat × Nat × List Nat :=
  retryAux statuses maxRetries 1

/-- The RFC 4648 standard base64 alphabet used by Go's
`base64.StdEncoding`. -/
def b64Alphabet : List Char :=
  "ABCDEFGHIJKLMNOPQRSTUVWXYZabcdefghijklmnopqrstuvwxyz0123456789+/".data

/-- Character for a 6-bit group. -/
def b64Char (n : Nat) : Char := b64Alphabet.getD n 'A'

/-- Index of a character in the base64 alphabet. -/
def b64DecIdx (c : Char) : Option Nat := List.findIdx? (· == c) b64Alphabet

/-- Models `base64.StdEncoding.EncodeToString`: 3-byte groups become 4
characters, with `=` padding for a 1- or 2-byte final group. -/
def b64EncodeL : List Nat → List Char
  | [] => []
  | [a] => [b64Char (a / 4), b64Char (a % 4 * 16), '=', '=']
  | [a, b] => [b64Char (a / 4), b64Char (a % 4 * 16 + b / 16), b64Char (b % 16 * 4), '=']
  | a :: b :: c :: rest =>
    b64Char (a / 4) :: b64Char (a % 4 * 16 + b / 16) :: b64Char (b % 16 * 4 + c / 64) ::
      b64Char (c % 64) :: b64EncodeL rest

/-- Models `base64.StdEncoding.DecodeString` on well-formed input: 4-char
groups decode to 3 bytes, with `=` padding allowed only in the final
group; anything else is a decode error (`none`). -/
def b64DecodeL : List Char → Option (List Nat)
  | [] => some []
  | c1 :: c2 :: c3 :: c4 :: rest =>
    match b64DecIdx c1, b64DecIdx c2 with
    | some w1, some w2 =>
      if c3 = '=' then
        if c4 = '=' ∧ rest = [] then some [w1 * 4 + w2 / 16] else none
      else
        match b64DecIdx c3 with
        | some w3 =>
          if c4 = '=' then
            if rest = [] then some [w1 * 4 + w2 / 16, w2 % 16 * 16 + w3 / 4] else none
          else
            match b64DecIdx c4, b64DecodeL rest with
            | some w4, some tl =>
              some ((w1 * 4 + w2 / 16) :: (w2 % 16 * 16 + w3 / 4) :: (w3 % 4 * 64 + w4) :: tl)
            | _, _ => none
        | none => none
    | _, _ => none
  | _ => none

/-- Base64 encoding producing a Go string. -/
def b64EncodeS (b : List Nat) : String := String.mk (b64EncodeL b)

/-- The `";base64,"` marker split on by the nested-envelope path. -/
def sepB64 : List Char := ";base64,".data

/-- Models `strings.SplitN(s, sep, 2)` when the separator occurs: splits at
the first occurrence; `none` when the separator does not occur. -/
def splitOnce (sep : List Char) : List Char → Option (List Char × List Char)
  | [] => if sep = [] then some ([], []) else none
  | x :: xs =>
    if (x :: xs).take sep.length = sep then some ([], (x :: xs).drop sep.length)
    else (splitOnce sep xs).map fun p => (x :: p.1, p.2)

/-- The `data` member of the Go `Base64Response` struct. -/
structure Base64Data where
  image : String
deriving DecidableEq, Repr

/-- The Go `Base64Response` struct: a success flag and a nested image
field carrying a data-URL. -/
structure Base64Response where
  success : Bool
  data : Base64Data
deriving DecidableEq, Repr

/-- Opening bytes of the canonical one-field `NestedImageJSON` object. -/
def nestedJSONOpen : List Char := "\x7b\"image\":\"".data

/-- Closing bytes of the canonical one-field `NestedImageJSON` object. -/
def nestedJSONClose : List Char := "\"\x7d".data

/-- Models `encoding/json` marshalling of `NestedImageJSON` for an
escape-free string value (the base64 payloads used here contain no quote
or backslash characters). -/
def serializeNestedJSON (s : String) : List Nat :=
  (nestedJSONOpen ++ s.data ++ nestedJSONClose).map Char.toNat

/-- Models `encoding/json` unmarshalling into `NestedImageJSON` on the
canonical single-field object with an escape-free string value. -/
def parseNestedImageJSON (bytes : List Nat) : Option String :=
  let pre := nestedJSONOpen.map Char.toNat
  if bytes.take pre.length = pre then
    let rest := bytes.drop pre.length
    let content := rest.takeWhile (fun b => b != 34)
    if rest.drop content.length = [34, 125] then
      some (String.mk (content.map Char.ofNat))
    else none
  else none

/-- The nested-base64 decode path of `UpscaleImageFromPath` (client.go
lines 343–393), from the parsed `Base64Response` to the raw image bytes
that get written to the temporary file: strip the `data:<mime>;base64,`
prefix, decode the outer base64 layer, parse the intermediate JSON, and
decode the inner base64 image field. -/
def processBase64Response (r : Base64Response) : Except UpscaleError (List Nat) :=
  let base64Data := r.data.image.data
  if startsWithL "data:".data base64Data && (splitOnce sepB64 base64Data).isSome then
    match splitOnce sepB64 base64Data with
    | some (_mimePart, outerB64) =>
      match b64DecodeL outerB64 with
      | none => .error .outerB64Invalid
      | some jsonData =>
        match parseNestedImageJSON jsonData with
        | none => .error .nestedJSONInvalid
        | some innerImage =>
          match b64DecodeL innerImage.data with
          | none => .error .innerB64Invalid
          | some imgData => .ok imgData
    | none => .error .invalidDataURL
  else .error .dataFormat

/-- Modelled from the claim's construction: the nested-base64 envelope for
image bytes `b` — inner JSON with `image` set to `base64(b)`, wrapped as a
data-URL of the base64 of those JSON bytes, inside a success envelope. -/
def mkNestedEnvelope (mime : List Char) (b : List Nat) : Base64Response :=
  { success := true
    data := { image := String.mk ("data:".data ++ mime ++ (sepB64 ++
        b64EncodeL (serializeNestedJSON (b64EncodeS b)))) } }

/-- The `UpscaleType` constants of client.go lines 39–43. -/
inductive UpscaleType where
  | fast
  | conservative
  | creative
deriving DecidableEq, Repr

/-- `string(opts.Type)` for the three declared constants. -/
def typeString : UpscaleType → String
  | .fast => "fast"
  | .conservative => "conservative"
  | .creative => "creative"

/-- The Go `UpscaleOptions` struct (client.go lines 74–83). -/
structure UpscaleOptions where
  type : UpscaleType := .fast
  prompt : String := ""
  negativePrompt : String := ""
  seed : Option Int := none
  creativity : Option Float := none
  outputFormat : String := ""
  stylePreset : String := ""

/-- Models `fmt.Sprintf("%d", *opts.Seed)`. -/
def fmtInt (i : Int) : String := toString i

/-- Models `fmt.Sprintf("%.2f", *opts.Creativity)`. -/
def fmtCreativity (f : Float) : String := toString f

/-- One part of the multipart upload body. -/
inductive FormPart where
  | filePart (field filename : String) (data : List Nat)
  | formField (field value : String)
deriving DecidableEq, Repr

/-- The multipart body built by `UpscaleImageFromPath` (client.go lines
131–181): one file part named `image`, the `type` field always, and the
optional fields exactly when their guards hold (prompt only for the
conservative/creative modes and only when non-empty). -/
def buildMultipartParts (imageName : String) (fileData : List Nat)
    (opts : UpscaleOptions) : List FormPart :=
  [FormPart.filePart "image" imageName fileData,
    FormPart.formField "type" (typeString opts.type)]
  ++ (if (opts.type = .conservative ∨ opts.type = .creative) ∧ opts.prompt ≠ "" then
      [FormPart.formField "prompt" opts.prompt] else [])
  ++ (if opts.negativePrompt ≠ "" then
      [FormPart.formField "negative_prompt" opts.negativePrompt] else [])
  ++ (match opts.seed with
      | some s => [FormPart.formField "seed" (fmtInt s)]
      | none => [])
  ++ (match opts.creativity with
      | some c => [FormPart.formField "creativity" (fmtCreativity c)]
      | none => [])
  ++ (if opts.outputFormat ≠ "" then
      [FormPart.formField "output_format" opts.outputFormat] else [])
  ++ (if opts.stylePreset ≠ "" then
      [FormPart.formField "style_preset" opts.stylePreset] else [])

/-- Whether a form field of the given name occurs in the multipart body. -/
def containsFormField (parts : List FormPart) (name : String) : Bool :=
  parts.any fun p =>
    match p with
    | .formField n _ => n == name
    | _ => false

/-- The file parts of a multipart body. -/
def filePartsOf (parts : List FormPart) : List FormPart :=
  parts.filter fun p =>
    match p with
    | .filePart _ _ _ => true
    | _ => false

/-- A 2xx response body as consumed by `UpscaleImageFromPath`: the raw
bytes together with the outcomes of the two `json.Unmarshal` attempts the
code performs on them (`none` when unmarshalling fails). -/
structure ServerBody where
  bytes : List Nat
  base64Parse : Option Base64Response
  resultParse : Option UpscaleResult

/-- The URL fallback chain of the direct-JSON path (client.go lines
443–459): `image_url`, then `output_url`, then `result` when it is an
absolute http(s) URL. -/
def applyURLFallback (r : UpscaleResult) : UpscaleResult :=
  if r.url == "" then
    if r.imageURL != "" then { r with url := r.imageURL }
    else if r.outputURL != "" then { r with url := r.outputURL }
    else if r.result != "" && (startsWithS "http://" r.result || startsWithS "https://" r.result) then
      { r with url := r.result }
    else r
  else r

/-- The plain-JSON tail of `UpscaleImageFromPath` (client.go lines
436–476): decode into `UpscaleResult`, resolve the URL, and for the async
modes require a job id and poll for the final result. -/
def handleJSONResult (mode : UpscaleType) (body : ServerBody)
    (atts : Nat → PollAttempt) :
    Except UpscaleError (UpscaleResult × Option (List Nat)) :=
  match body.resultParse with
  | none => .error (.decodeFailed body.bytes)
  | some r0 =>
    if (applyURLFallback r0).url == "" then .error (.noURL body.bytes)
    else if mode = .creative ∨ mode = .conservative then
      if (applyURLFallback r0).id == "" then .error .noJobID
      else (pollForResultID (applyURLFallback r0).id atts).map fun pr => (pr, none)
    else .ok (applyURLFallback r0, none)

/-- The response-resolution pipeline of `UpscaleImageFromPath` (client.go
lines 292–476) on a 2xx body: binary branch, nested-base64 branch, then
plain JSON. `tmpPath` stands for the path `os.CreateTemp` hands out; the
second component of a success is the bytes written to that file, when any
file is written. -/
def handleBody (mode : UpscaleType) (body : ServerBody) (tmpPath : String)
    (atts : Nat → PollAttempt) :
    Except UpscaleError (UpscaleResult × Option (List Nat)) :=
  match classifyBody body.bytes with
  | .binaryImage _ => .ok ({ url := tmpPath, isCompleted := true }, some body.bytes)
  | .jsonLike =>
    match body.base64Parse with
    | some b64r =>
      if b64r.success && b64r.data.image != "" then
        match processBase64Response b64r with
        | .ok imgData => .ok ({ url := tmpPath, isCompleted := true }, some imgData)
        | .error e => .error e
      else handleJSONResult mode body atts
    | none => handleJSONResult mode body atts

/-- C7: every byte sequence beginning with the 8-byte PNG magic number is
classified as binary image data with the PNG extension, whatever the
remaining bytes contain. -/
theorem png_magic_always_binary (tail : List Nat) :
    classifyBody (pngSignature ++ tail) = .binaryImage ".png" := by
  have hsig : hasPNGSignature (pngSignature ++ tail) = true := by
    simp [hasPNGSignature, List.take_left, pngSignature]
  simp only [pngSignature, List.cons_append, List.nil_append] at hsig ⊢
  simp [classifyBody, hsig]

/-- C2 counterexample: a transport-level failure on a poll attempt does
terminate the loop — with five ticks of budget left, a failing GET makes
the loop return the transport error instead of continuing to poll. -/
theorem poll_transport_failure_terminates_cex :
    pollLoop 5 (fun _ => PollAttempt.transportErr "connection refused") =
      PollFinal.err (.pollTransport "connection refused") := rfl

/-- C2 amended: a non-success (non-200) status on a poll attempt, or a 200
whose body fails to parse, never terminates the loop — polling continues
with the next tick; a transport-level failure, however, terminates the
loop immediately with an error. -/
theorem poll_attempt_continuation (n : Nat) (atts : Nat → PollAttempt) :
    (∀ status parsed, atts 0 = .response status parsed → status ≠ 200 →
        pollLoop (n + 1) atts = pollLoop n (fun i => atts (i + 1)))
    ∧ (∀ status, atts 0 = .response status none →
        pollLoop (n + 1) atts = pollLoop n (fun i => atts (i + 1)))
    ∧ (∀ msg, atts 0 = .transportErr msg →
        pollLoop (n + 1) atts = .err (.pollTransport msg)) := by
  refine ⟨fun status parsed h hne => ?_, fun status h => ?_, fun msg h => ?_⟩
  · simp [pollLoop, pollStep, h, hne]
  · by_cases hs : status = 200 <;> simp [pollLoop, pollStep, h, hs]
  · simp [pollLoop, pollStep, h]

/-- Witness for the amended C2 theorem at concrete inputs. -/
theorem poll_attempt_continuation_witness :
    pollLoop 3 (fun _ => PollAttempt.response 503 none) =
      pollLoop 2 (fun _ => PollAttempt.response 503 none) :=
  (poll_attempt_continuation 2 (fun _ => PollAttempt.response 503 none)).1
    503 none rfl (by decide)

/-- C3 counterexample: a 200 poll response with `status = "completed"` and
`result = "http://x/img.png"` resolves to that URL under the spec's §4.3
field-priority rule, yet the poll loop does not treat it as completed — it
keeps polling, because the poller never consults the `result` field. -/
theorem poll_result_field_ignored_cex :
    (UpscaleResult.status { status := "completed", result := "http://x/img.png" } = "completed"
      ∧ specResolveLocation { status := "completed", result := "http://x/img.png" } =
          "http://x/img.png")
    ∧ pollStep (.response 200 (some { status := "completed", result := "http://x/img.png" })) =
        none :=
  ⟨⟨rfl, rfl⟩, rfl⟩

/-- C3 amended: a poll response is interpreted as Completed exactly when
(the completion flag is true, or the status equals "completed" or "done")
AND a location resolves via the priority `url`, then `image_url`, then
`output_url` — the `result` field is not consulted by the poller — and in
that case the poller returns the response with its URL set to that
location. -/
theorem poll_completed_resolution (r : UpscaleResult) :
    pollStep (.response 200 (some r)) = some (.ok { r with url := pollResolveLocation r })
      ↔ ((r.isCompleted = true ∨ r.status = "completed" ∨ r.status = "done")
        ∧ pollResolveLocation r ≠ "") := by
  obtain ⟨i, st, u, er, ic, su, me, re, im, ou⟩ := r
  simp only [pollStep, pollResolveLocation]
  by_cases hic : ic = true <;> by_cases hst1 : st = "completed" <;>
    by_cases hst2 : st = "done" <;> by_cases hu : u = "" <;> by_cases him : im = "" <;>
    by_cases hou : ou = "" <;> by_cases her : er = "" <;> subst_vars <;> simp_all

/-- If no poll attempt ever produces a terminal outcome, the loop runs out
of its tick budget and times out. -/
theorem pollLoop_none_timedOut (n : Nat) :
    ∀ atts : Nat → PollAttempt, (∀ i, pollStep (atts i) = none) →
      pollLoop n atts = .timedOut := by
  induction n with
  | zero => intro atts _; rfl
  | succ m ih =>
    intro atts h
    simp only [pollLoop, h 0]
    exact ih (fun i => atts (i + 1)) (fun i => h (i + 1))

/-- C5: for every sequence of poll responses in which no terminal state is
ever reached, `pollForResultID` exits with the distinct timeout error once
the tick budget derived from the fixed 5-minute ceiling is exhausted — it
never returns a pending result and never polls forever. -/
theorem poll_no_terminal_times_out (jobID : String) (atts : Nat → PollAttempt)
    (hjob : jobID ≠ "") (hnone : ∀ i, pollStep (atts i) = none) :
    pollForResultID jobID atts = .error .pollTimeout := by
  have hne : (jobID == "") = false := by
    simpa using hjob
  simp only [pollForResultID, hne, Bool.false_eq_true, if_false,
    pollLoop_none_timedOut pollTicks atts hnone]

/-- Witness for C5: a job that always answers 202/no-body times out. -/
theorem poll_no_terminal_times_out_witness :
    pollForResultID "job-9" (fun _ => PollAttempt.response 202 none) =
      .error .pollTimeout :=
  poll_no_terminal_times_out "job-9" (fun _ => PollAttempt.response 202 none)
    (by decide) (fun _ => rfl)

/-- C4: the upscale transport retries only on 5xx statuses, performs at
most 3 attempts with linear backoff sleeps of `attempt × 1s`, and returns
any sub-500 (in particular 2xx/4xx) response immediately; against 502,
502, 200 it performs exactly 3 attempts, sleeps 1s then 2s, and returns
the 200 result. -/
theorem upscale_retry_policy (statuses : Nat → Nat) :
    (statuses 1 = 502 → statuses 2 = 502 → statuses 3 = 200 →
      sendWithRetry statuses = (3, 200, [1, 2]))
    ∧ (statuses 1 < 500 → sendWithRetry statuses = (1, statuses 1, []))
    ∧ (500 ≤ statuses 1 → statuses 2 < 500 →
      sendWithRetry statuses = (2, statuses 2, [1]))
    ∧ (500 ≤ statuses 1 → 500 ≤ statuses 2 →
      sendWithRetry statuses = (3, statuses 3, [1, 2])) := by
  refine ⟨fun h1 h2 h3 => ?_, fun h1 => ?_, fun h1 h2 => ?_, fun h1 h2 => ?_⟩ <;>
    simp only [sendWithRetry, maxRetries]
  · have c1 : 500 ≤ statuses 1 ∧ 1 < 3 := by omega
    have c2 : 500 ≤ statuses 2 ∧ 2 < 3 := by omega
    have c3 : ¬(500 ≤ statuses 3 ∧ 3 < 3) := by omega
    rw [retryAux, dif_pos c1, retryAux, dif_pos c2, retryAux, dif_neg c3]
    simp [h3]
  · have c1 : ¬(500 ≤ statuses 1 ∧ 1 < 3) := by omega
    rw [retryAux, dif_neg c1]
  · have c1 : 500 ≤ statuses 1 ∧ 1 < 3 := by omega
    have c2 : ¬(500 ≤ statuses 2 ∧ 2 < 3) := by omega
    rw [retryAux, dif_pos c1, retryAux, dif_neg c2]
  · have c1 : 500 ≤ statuses 1 ∧ 1 < 3 := by omega
    have c2 : 500 ≤ statuses 2 ∧ 2 < 3 := by omega
    have c3 : ¬(500 ≤ statuses 3 ∧ 3 < 3) := by omega
    rw [retryAux, dif_pos c1, retryAux, dif_pos c2, retryAux, dif_neg c3]

/-- Witness for C4: a transport answering 502, 502, 200. -/
theorem upscale_retry_policy_witness :
    sendWithRetry (fun n => if n ≤ 2 then 502 else 200) = (3, 200, [1, 2]) :=
  (upscale_retry_policy (fun n => if n ≤ 2 then 502 else 200)).1 rfl rfl rfl

/-- Decoding a base64 character recovers its 6-bit index. -/
theorem b64DecIdx_b64Char : ∀ i, i < 64 → b64DecIdx (b64Char i) = some i := by decide

/-- No base64 alphabet character is the padding character. -/
theorem b64Char_ne_pad : ∀ i, i < 64 → b64Char i ≠ '=' := by decide

/-- `b64Char` always lands in the alphabet (out-of-range hits the default). -/
theorem b64Char_mem (n : Nat) : b64Char n ∈ b64Alphabet := by
  by_cases h : n < 64
  · exact (by decide : ∀ m, m < 64 → b64Char m ∈ b64Alphabet) n h
  · unfold b64Char
    rw [List.getD_eq_default _ _ (by
      have : b64Alphabet.length = 64 := rfl
      omega)]
    decide

/-- Standard base64 round trip: decoding an encoding recovers the bytes. -/
theorem b64_roundtrip : ∀ b : List Nat, (∀ x ∈ b, x < 256) →
    b64DecodeL (b64EncodeL b) = some b
  | [], _ => rfl
  | [a], h => by
    have ha : a < 256 := h a (by simp)
    have e1 := b64DecIdx_b64Char (a / 4) (by omega)
    have e2 := b64DecIdx_b64Char (a % 4 * 16) (by omega)
    simp [b64EncodeL, b64DecodeL, e1, e2]
    omega
  | [a, b], h => by
    have ha : a < 256 := h a (by simp)
    have hb : b < 256 := h b (by simp)
    have e1 := b64DecIdx_b64Char (a / 4) (by omega)
    have e2 := b64DecIdx_b64Char (a % 4 * 16 + b / 16) (by omega)
    have e3 := b64DecIdx_b64Char (b % 16 * 4) (by omega)
    have hne := b64Char_ne_pad (b % 16 * 4) (by omega)
    simp [b64EncodeL, b64DecodeL, e1, e2, e3, hne]
    omega
  | a :: b :: c :: rest, h => by
    have ha : a < 256 := h a (by simp)
    have hb : b < 256 := h b (by simp)
    have hc : c < 256 := h c (by simp)
    have ih := b64_roundtrip rest (fun x hx => h x (by simp [hx]))
    have e1 := b64DecIdx_b64Char (a / 4) (by omega)
    have e2 := b64DecIdx_b64Char (a % 4 * 16 + b / 16) (by omega)
    have e3 := b64DecIdx_b64Char (b % 16 * 4 + c / 64) (by omega)
    have e4 := b64DecIdx_b64Char (c % 64) (by omega)
    have hne3 := b64Char_ne_pad (b % 16 * 4 + c / 64) (by omega)
    have hne4 := b64Char_ne_pad (c % 64) (by omega)
    simp [b64EncodeL, b64DecodeL, e1, e2, e3, e4, hne3, hne4, ih]
    refine ⟨by omega, by omega, by omega⟩

/-- Characters produced by the encoder: alphabet members or padding. -/
theorem b64EncodeL_chars : ∀ b : List Nat, ∀ c ∈ b64EncodeL b, c ∈ b64Alphabet ∨ c = '='
  | [], c, hc => by simp [b64EncodeL] at hc
  | [a], c, hc => by
    simp [b64EncodeL] at hc
    rcases hc with rfl | rfl | rfl
    · exact Or.inl (b64Char_mem _)
    · exact Or.inl (b64Char_mem _)
    · exact Or.inr rfl
  | [a, b], c, hc => by
    simp [b64EncodeL] at hc
    rcases hc with rfl | rfl | rfl | rfl
    · exact Or.inl (b64Char_mem _)
    · exact Or.inl (b64Char_mem _)
    · exact Or.inl (b64Char_mem _)
    · exact Or.inr rfl
  | a :: b :: d :: rest, c, hc => by
    simp only [b64EncodeL, List.mem_cons] at hc
    rcases hc with rfl | rfl | rfl | rfl | hmem
    · exact Or.inl (b64Char_mem _)
    · exact Or.inl (b64Char_mem _)
    · exact Or.inl (b64Char_mem _)
    · exact Or.inl (b64Char_mem _)
    · exact b64EncodeL_chars rest c hmem

/-- Encoder output is ASCII, in particular below 256. -/
theorem b64EncodeL_toNat_lt (b : List Nat) : ∀ c ∈ b64EncodeL b, c.toNat < 256 := by
  intro c hc
  rcases b64EncodeL_chars b c hc with h | rfl
  · exact (by decide : ∀ x ∈ b64Alphabet, x.toNat < 256) c h
  · decide

/-- Encoder output never contains the double-quote byte. -/
theorem b64EncodeL_no_quote (b : List Nat) : ∀ c ∈ b64EncodeL b, c.toNat ≠ 34 := by
  intro c hc
  rcases b64EncodeL_chars b c hc with h | rfl
  · exact (by decide : ∀ x ∈ b64Alphabet, x.toNat ≠ 34) c h
  · decide

/-- Bytes of the serialized nested JSON stay below 256 when the payload
characters do. -/
theorem serializeNestedJSON_lt (s : String) (hs : ∀ c ∈ s.data, c.toNat < 256) :
    ∀ x ∈ serializeNestedJSON s, x < 256 := by
  intro x hx
  simp only [serializeNestedJSON, List.mem_map, List.mem_append] at hx
  obtain ⟨c, hc, rfl⟩ := hx
  rcases hc with (hc | hc) | hc
  · exact (by decide : ∀ c ∈ nestedJSONOpen, c.toNat < 256) c hc
  · exact hs c hc
  · exact (by decide : ∀ c ∈ nestedJSONClose, c.toNat < 256) c hc

/-- `takeWhile` passes over a prefix whose elements all satisfy the test. -/
theorem takeWhile_append_of_all {α} (p : α → Bool) (A B : List α)
    (hA : ∀ a ∈ A, p a = true) :
    (A ++ B).takeWhile p = A ++ B.takeWhile p := by
  induction A with
  | nil => simp
  | cons x xs ih =>
    have hx := hA x (by simp)
    simp [List.takeWhile_cons, hx, ih (fun a ha => hA a (by simp [ha]))]

/-- Parsing the serialized nested JSON recovers the payload, provided the
payload contains no quote character. -/
theorem parseNestedImageJSON_serialize (s : String)
    (hq : ∀ c ∈ s.data, c.toNat ≠ 34) :
    parseNestedImageJSON (serializeNestedJSON s) = some s := by
  have hser : serializeNestedJSON s =
      nestedJSONOpen.map Char.toNat ++
        (s.data.map Char.toNat ++ nestedJSONClose.map Char.toNat) := by
    simp [serializeNestedJSON, List.map_append]
  have hclose : nestedJSONClose.map Char.toNat = [34, 125] := rfl
  have hall : ∀ a ∈ s.data.map Char.toNat, (a != 34) = true := by
    intro a ha
    obtain ⟨c, hc, rfl⟩ := List.mem_map.mp ha
    simpa using hq c hc
  have htake : (s.data.map Char.toNat ++ [34, 125]).takeWhile (fun b => b != 34) =
      s.data.map Char.toNat := by
    rw [takeWhile_append_of_all _ _ _ hall]
    simp
  rw [hser]
  simp only [parseNestedImageJSON]
  rw [List.take_left, if_pos rfl, List.drop_left, hclose, htake]
  rw [List.drop_left, if_pos rfl]
  congr 1
  rw [List.map_map]
  have : s.data.map (Char.ofNat ∘ Char.toNat) = s.data.map id := by
    apply List.map_congr_left
    intro c _
    exact Char.ofNat_toNat c
  rw [this, List.map_id]

/-- Splitting at the `";base64,"` marker finds the marker appended after a
prefix free of semicolons. -/
theorem splitOnce_at_sep : ∀ pre rest : List Char, ';' ∉ pre →
    splitOnce sepB64 (pre ++ (sepB64 ++ rest)) = some (pre, rest)
  | [], rest, _ => rfl
  | x :: pre, rest, h => by
    have hx : x ≠ ';' := fun hcon => h (by simp [hcon])
    have ih := splitOnce_at_sep pre rest (fun hmem => h (by simp [hmem]))
    rw [List.cons_append, splitOnce]
    rw [if_neg ?hne]
    · rw [ih]
      rfl
    case hne =>
      intro heq
      have hstep : (x :: (pre ++ (sepB64 ++ rest))).take sepB64.length =
          x :: (pre ++ (sepB64 ++ rest)).take 7 := rfl
      rw [hstep] at heq
      have : x = ';' := by
        have h2 := congrArg List.head? heq
        rw [show sepB64 = ';' :: "base64,".data from rfl] at h2
        simpa using h2
      exact hx this

/-- Decoding the constructed nested-base64 envelope recovers the embedded
image bytes. -/
theorem processBase64Response_mk (mime : List Char) (b : List Nat)
    (hm : ';' ∉ mime) (hb : ∀ x ∈ b, x < 256) :
    processBase64Response (mkNestedEnvelope mime b) = .ok b := by
  have hchars : (mkNestedEnvelope mime b).data.image.data =
      ("data:".data ++ mime) ++
        (sepB64 ++ b64EncodeL (serializeNestedJSON (b64EncodeS b))) := by
    simp [mkNestedEnvelope]
  have hsplit : splitOnce sepB64 ((mkNestedEnvelope mime b).data.image.data) =
      some ("data:".data ++ mime, b64EncodeL (serializeNestedJSON (b64EncodeS b))) := by
    rw [hchars]
    refine splitOnce_at_sep _ _ ?_
    intro hmem
    rcases List.mem_append.mp hmem with h | h
    · exact absurd h (by decide)
    · exact hm h
  have hpre : startsWithL "data:".data ((mkNestedEnvelope mime b).data.image.data) = true := by
    rw [hchars, List.append_assoc]
    unfold startsWithL
    rw [List.take_left]
    exact beq_self_eq_true _
  have houter : b64DecodeL (b64EncodeL (serializeNestedJSON (b64EncodeS b))) =
      some (serializeNestedJSON (b64EncodeS b)) :=
    b64_roundtrip _ (serializeNestedJSON_lt _ (b64EncodeL_toNat_lt b))
  have hparse : parseNestedImageJSON (serializeNestedJSON (b64EncodeS b)) =
      some (b64EncodeS b) :=
    parseNestedImageJSON_serialize _ (b64EncodeL_no_quote b)
  have hinner : b64DecodeL (b64EncodeS b).data = some b := b64_roundtrip b hb
  simp only [processBase64Response]
  rw [hsplit, hpre]
  simp only [Option.isSome_some, Bool.and_true, Bool.true_and, if_true, reduceIte]
  simp only [houter, hparse, hinner]

/-- C8: nested-base64 round-trip law — constructing the nested-base64
envelope for image bytes `b` and decoding it with the payload decoder
recovers exactly `b`, the bytes written to the temporary file. -/
theorem nested_envelope_roundtrip (mime : List Char) (b : List Nat)
    (hm : ';' ∉ mime) (hb : ∀ x ∈ b, x < 256) :
    processBase64Response (mkNestedEnvelope mime b) = .ok b :=
  processBase64Response_mk mime b hm hb

/-- Witness for C8 at a concrete MIME type and byte string. -/
theorem nested_envelope_roundtrip_witness :
    processBase64Response (mkNestedEnvelope "image/png".data [137, 80, 71]) =
      .ok [137, 80, 71] :=
  nested_envelope_roundtrip "image/png".data [137, 80, 71] (by decide) (by decide)

/-- The constructed envelope's image field is never the empty string. -/
theorem mkNestedEnvelope_image_ne (mime : List Char) (b : List Nat) :
    ((mkNestedEnvelope mime b).data.image != "") = true := by
  rw [bne_iff_ne]
  intro h
  have h2 := congrArg String.data h
  exact absurd h2 (List.cons_ne_nil _ _)

/-- C10: when the success envelope's data-URL payload decodes to JSON whose
inner `image` field is the empty string, the pipeline does not fail — it
base64-decodes the empty string, writes a zero-byte temporary file, and
returns a completed result whose location is that file's path. -/
theorem empty_inner_image_accepted (mode : UpscaleType) (tmpPath : String)
    (atts : Nat → PollAttempt) (mime : List Char) (hm : ';' ∉ mime) :
    handleBody mode
      { bytes := [123],
        base64Parse := some (mkNestedEnvelope mime []),
        resultParse := none } tmpPath atts =
      .ok ({ url := tmpPath, isCompleted := true }, some []) := by
  have hok : processBase64Response (mkNestedEnvelope mime []) = .ok [] :=
    processBase64Response_mk mime [] hm (by simp)
  have hclass : classifyBody [123] = BodyClass.jsonLike := rfl
  have hcond : ((mkNestedEnvelope mime []).success &&
      ((mkNestedEnvelope mime []).data.image != "")) = true := by
    rw [mkNestedEnvelope_image_ne]
    rfl
  simp only [handleBody, hclass, hcond, if_true, hok]

/-- Witness for C10 at a concrete MIME type and mode. -/
theorem empty_inner_image_accepted_witness :
    handleBody .fast
      { bytes := [123],
        base64Parse := some (mkNestedEnvelope "application/json".data []),
        resultParse := none } "/tmp/upscaled-1.png" (fun _ => PollAttempt.response 202 none) =
      .ok ({ url := "/tmp/upscaled-1.png", isCompleted := true }, some []) :=
  empty_inner_image_accepted .fast "/tmp/upscaled-1.png" (fun _ => PollAttempt.response 202 none)
    "application/json".data (by decide)

/-- Characterization of the terminal-success case of a poll iteration. -/
theorem pollStep_ok_iff (a : PollAttempt) (r : UpscaleResult) :
    pollStep a = some (.ok r) ↔
      ∃ r0 : UpscaleResult, a = .response 200 (some r0)
        ∧ (r0.isCompleted = true ∨ r0.status = "completed" ∨ r0.status = "done")
        ∧ pollResolveLocation r0 ≠ ""
        ∧ r = { r0 with url := pollResolveLocation r0 } := by
  cases a with
  | transportErr m => simp [pollStep]
  | readErr m => simp [pollStep]
  | response status parsed =>
    cases parsed with
    | none => simp [pollStep, ite_self]
    | some r0 =>
      by_cases hs : status = 200
      · subst hs
        obtain ⟨i, st, u, er, ic, su, me, re, im, ou⟩ := r0
        simp only [pollStep, pollResolveLocation]
        by_cases hic : ic = true <;> by_cases hst1 : st = "completed" <;>
          by_cases hst2 : st = "done" <;> by_cases hu : u = "" <;>
          by_cases him : im = "" <;> by_cases hou : ou = "" <;>
          by_cases her : er = "" <;> subst_vars <;> simp_all <;> exact eq_comm
      · simp [pollStep, hs]

/-- A poll loop that terminates successfully carries a non-empty URL. -/
theorem pollLoop_ok_url : ∀ (n : Nat) (atts : Nat → PollAttempt) (r : UpscaleResult),
    pollLoop n atts = .ok r → r.url ≠ "" := by
  intro n
  induction n with
  | zero => intro atts r h; simp [pollLoop] at h
  | succ m ih =>
    intro atts r h
    simp only [pollLoop] at h
    cases hp : pollStep (atts 0) with
    | none => rw [hp] at h; exact ih _ r h
    | some e =>
      cases e with
      | ok r' =>
        rw [hp] at h
        simp at h
        obtain ⟨r0, _, _, hloc, hr⟩ := (pollStep_ok_iff _ _).mp hp
        rw [← h, hr]
        exact hloc
      | error e => rw [hp] at h; simp at h

/-- A successful `pollForResultID` carries a non-empty URL. -/
theorem pollForResultID_ok_url (jobID : String) (atts : Nat → PollAttempt)
    (r : UpscaleResult) (h : pollForResultID jobID atts = .ok r) : r.url ≠ "" := by
  simp only [pollForResultID] at h
  by_cases hj : (jobID == "") = true
  · rw [if_pos hj] at h; exact absurd h (by simp)
  · rw [if_neg hj] at h
    cases hp : pollLoop pollTicks atts with
    | ok r' =>
      rw [hp] at h
      simp at h
      rw [← h]
      exact pollLoop_ok_url _ _ _ hp
    | err e => rw [hp] at h; simp at h
    | timedOut => rw [hp] at h; simp at h

/-- A successful plain-JSON path carries a non-empty URL. -/
theorem handleJSONResult_ok_url (mode : UpscaleType) (body : ServerBody)
    (atts : Nat → PollAttempt) (r : UpscaleResult) (w : Option (List Nat))
    (h : handleJSONResult mode body atts = .ok (r, w)) : r.url ≠ "" := by
  simp only [handleJSONResult] at h
  split at h
  · exact absurd h (by simp)
  · rename_i r0 heq
    split at h
    · exact absurd h (by simp)
    · rename_i hurl
      split at h
      · split at h
        · exact absurd h (by simp)
        · cases hp : pollForResultID (applyURLFallback r0).id atts with
          | ok pr =>
            rw [hp] at h
            simp [Except.map] at h
            rw [← h.1]
            exact pollForResultID_ok_url _ _ _ hp
          | error e => rw [hp] at h; simp [Except.map] at h
      · simp at h
        rw [← h.1]
        simpa using hurl

/-- C6: every result a success path hands back satisfies the invariant —
when its completion flag is set, its URL (the image location) is
non-empty; no caller ever receives a completed result with no location. -/
theorem completed_result_has_location (mode : UpscaleType) (body : ServerBody)
    (tmpPath : String) (atts : Nat → PollAttempt) (r : UpscaleResult)
    (w : Option (List Nat)) (hpath : tmpPath ≠ "")
    (h : handleBody mode body tmpPath atts = .ok (r, w)) :
    r.isCompleted = true → r.url ≠ "" := by
  intro _
  simp only [handleBody] at h
  split at h
  · simp at h
    rw [← h.1]
    exact hpath
  · split at h
    · split at h
      · split at h
        · simp at h
          rw [← h.1]
          exact hpath
        · exact absurd h (by simp)
      · exact handleJSONResult_ok_url _ _ _ _ _ h
    · exact handleJSONResult_ok_url _ _ _ _ _ h

/-- Witness for C6: the binary-image path at a concrete PNG body. -/
theorem completed_result_has_location_witness :
    ({ url := "/tmp/upscaled-2.png", isCompleted := true } : UpscaleResult).url ≠ "" :=
  completed_result_has_location .fast
    { bytes := [0x89, 0x50, 0x4E, 0x47, 0x0D, 0x0A, 0x1A, 0x0A, 0x01],
      base64Parse := none, resultParse := none }
    "/tmp/upscaled-2.png" (fun _ => PollAttempt.response 202 none)
    { url := "/tmp/upscaled-2.png", isCompleted := true }
    (some [0x89, 0x50, 0x4E, 0x47, 0x0D, 0x0A, 0x1A, 0x0A, 0x01])
    (by decide) rfl rfl

/-- The URL fallback never changes the job id. -/
theorem applyURLFallback_id (r : UpscaleResult) :
    (applyURLFallback r).id = r.id := by
  unfold applyURLFallback
  split_ifs <;> rfl

/-- C1 counterexample: with mode creative and a response body that is
exactly the JSON object carrying only `id = "job-1"` (whose two unmarshal
views are the zero-valued `Base64Response` and an `UpscaleResult` with
only the id set), `UpscaleImageFromPath` does not proceed to poll — it
fails with the "no upscaled image URL in response" error before ever
reaching the job-id check. -/
theorem job_id_only_body_fails_cex :
    handleBody .creative
      { bytes := [123, 34, 105, 100, 34, 58, 34, 106, 111, 98, 45, 49, 34, 125],
        base64Parse := some { success := false, data := { image := "" } },
        resultParse := some { id := "job-1" } }
      "/tmp/up.png" (fun _ => PollAttempt.response 202 none) =
      .error (.noURL [123, 34, 105, 100, 34, 58, 34, 106, 111, 98, 45, 49, 34, 125]) := rfl

/-- C1 amended: for a JSON response, a job id alone never yields a job
ticket — when no URL field resolves, the client fails with the no-URL
error even in the async modes; polling on the job id happens only when a
usable URL field is also present alongside a non-empty id. -/
theorem job_ticket_requires_url (mode : UpscaleType) (body : ServerBody)
    (tmpPath : String) (atts : Nat → PollAttempt) (r : UpscaleResult)
    (hclass : classifyBody body.bytes = .jsonLike)
    (hb64 : ∀ b64r, body.base64Parse = some b64r →
      (b64r.success && b64r.data.image != "") = false)
    (hres : body.resultParse = some r) :
    ((applyURLFallback r).url = "" →
      handleBody mode body tmpPath atts = .error (.noURL body.bytes))
    ∧ (mode = .creative → (applyURLFallback r).url ≠ "" → r.id ≠ "" →
      handleBody mode body tmpPath atts =
        (pollForResultID r.id atts).map fun pr => (pr, none)) := by
  have hjson : handleBody mode body tmpPath atts = handleJSONResult mode body atts := by
    simp only [handleBody, hclass]
    cases hbp : body.base64Parse with
    | none => rfl
    | some b64r => simp [hb64 b64r hbp]
  constructor
  · intro hurl
    rw [hjson]
    simp only [handleJSONResult, hres]
    simp [hurl]
  · intro hmode hurl hid
    rw [hjson]
    simp only [handleJSONResult, hres]
    have h1 : ((applyURLFallback r).url == "") = false := by simpa using hurl
    have h3 : ((applyURLFallback r).id == "") = false := by
      rw [applyURLFallback_id]
      simpa using hid
    simp [h1, h3, hmode, applyURLFallback_id]
    exact fun h => absurd h hid

/-- Witness for the amended C1 theorem: a body carrying both a job id and
a placeholder URL proceeds to polling. -/
theorem job_ticket_requires_url_witness :
    handleBody .creative
      { bytes := [123],
        base64Parse := none,
        resultParse := some { id := "job-1", url := "http://x/pending" } }
      "/tmp/up2.png" (fun _ => PollAttempt.response 202 none) =
      (pollForResultID "job-1" (fun _ => PollAttempt.response 202 none)).map
        fun pr => (pr, none) :=
  (job_ticket_requires_url .creative
    { bytes := [123], base64Parse := none,
      resultParse := some { id := "job-1", url := "http://x/pending" } }
    "/tmp/up2.png" (fun _ => PollAttempt.response 202 none)
    { id := "job-1", url := "http://x/pending" }
    rfl (fun _ h => nomatch h) rfl).2 rfl (by decide) (by decide)

/-- `List.any` distributes over an if-then-else of lists. -/
theorem any_ite {α : Type} (c : Prop) [Decidable c] (l1 l2 : List α) (p : α → Bool) :
    (if c then l1 else l2).any p = if c then l1.any p else l2.any p := by
  split <;> rfl

/-- `List.filter` distributes over an if-then-else of lists. -/
theorem filter_ite {α : Type} (c : Prop) [Decidable c] (l1 l2 : List α) (p : α → Bool) :
    (if c then l1 else l2).filter p = if c then l1.filter p else l2.filter p := by
  split <;> rfl

/-- C9 counterexample: with mode fast and prompt "cat" (set), the
multipart body carries no `prompt` field — presence of `prompt` is not
equivalent to the option being set, because the prompt is only written
for the conservative/creative modes. -/
theorem prompt_dropped_for_fast_mode_cex :
    containsFormField (buildMultipartParts "a.png" [1]
      { type := .fast, prompt := "cat" }) "prompt" = false
    ∧ ({ type := UpscaleType.fast, prompt := "cat" } : UpscaleOptions).prompt ≠ "" :=
  ⟨rfl, by decide⟩

/-- C9 amended: the multipart body contains exactly one file part, named
`image`; the `type` field is always present; `prompt` is present iff it is
set AND the mode is conservative or creative; each of `negative_prompt`,
`seed`, `creativity`, `output_format`, and `style_preset` is present iff
that option is set. -/
theorem multipart_field_presence (imageName : String) (fileData : List Nat)
    (opts : UpscaleOptions) :
    (filePartsOf (buildMultipartParts imageName fileData opts) =
      [FormPart.filePart "image" imageName fileData])
    ∧ containsFormField (buildMultipartParts imageName fileData opts) "type" = true
    ∧ (containsFormField (buildMultipartParts imageName fileData opts) "prompt" = true
        ↔ ((opts.type = .conservative ∨ opts.type = .creative) ∧ opts.prompt ≠ ""))
    ∧ (containsFormField (buildMultipartParts imageName fileData opts) "negative_prompt" = true
        ↔ opts.negativePrompt ≠ "")
    ∧ (containsFormField (buildMultipartParts imageName fileData opts) "seed" = true
        ↔ opts.seed.isSome = true)
    ∧ (containsFormField (buildMultipartParts imageName fileData opts) "creativity" = true
        ↔ opts.creativity.isSome = true)
    ∧ (containsFormField (buildMultipartParts imageName fileData opts) "output_format" = true
        ↔ opts.outputFormat ≠ "")
    ∧ (containsFormField (buildMultipartParts imageName fileData opts) "style_preset" = true
        ↔ opts.stylePreset ≠ "") := by
  obtain ⟨ty, pr, np, sd, cr, ofm, sp⟩ := opts
  cases sd <;> cases cr <;>
    simp [buildMultipartParts, containsFormField, filePartsOf, any_ite, filter_ite,
      List.any_append, List.filter_append]
